import Mathlib

/-!
Verification of the distortos synchronization core against its specification.

The development covers two areas:

* `FifoQueueBase::popPushImplementation` (source/synchronization/FifoQueueBase.cpp)
  is embedded directly: semaphore wait/post results are inputs, the transfer
  functor is a function on the storage pointer (modelled as a natural-number
  address), and the function additionally records an event trace so that the
  ordering of the interrupt-masking critical section, the semaphore wait, the
  functor invocation and the semaphore post can be stated.

* The priority-inheritance (PI) mutex machinery exercised by
  test/Mutex/MutexPriorityInheritanceOperationsTestCase.cpp.  The mutex and
  scheduler implementation is not part of the sources at hand (only the test
  is), so the kernel behaviour is modelled from the specification: effective
  priority is the maximum of the thread's base priority and the effective
  priorities of threads blocked on PI mutexes it owns, recomputed and
  propagated along the owner chain on blocking, timeout and setPriority.
  The concrete scenarios (the 10-thread tree of testBasicPriorityInheritance,
  the 10-deep linear chains of testCanceledLock / testPriorityChange, and the
  priorityChanges table) are translated from the test source.
-/

set_option linter.unusedVariables false

namespace Distortos

/-! ### Error codes

Modelled from the spec: errors are small integer codes; the concrete values
are those of newlib, which distortos targets.  The claims only depend on the
codes being the fixed named constants. -/

/-- Modelled from the spec: POSIX `EPERM` error code (ownership violation). -/
def EPERM : Nat := 1

/-- Modelled from the spec: POSIX `EAGAIN` error code (recursion-count overflow). -/
def EAGAIN : Nat := 11

/-- Modelled from the spec: POSIX `EDEADLK` error code (ErrorChecking self-lock). -/
def EDEADLK : Nat := 45

/-- Modelled from the spec: POSIX `ETIMEDOUT` error code (timed wait expired). -/
def ETIMEDOUT : Nat := 116

/-! ### FIFO queue base (embedded from source/synchronization/FifoQueueBase.cpp) -/

/-- Identity of one of the two semaphores coordinating the circular buffer. -/
inductive SemId : Type where
  | space : SemId
  | items : SemId
deriving DecidableEq, Repr

/-- Events recorded while executing `popPushImplementation`; the trace makes
the ordering of the critical section and the semaphore operations statable. -/
inductive QueueEvent : Type where
  | lockEnter : QueueEvent
  | semWait (s : SemId) : QueueEvent
  | functorCall (ptr : Nat) : QueueEvent
  | semPost (s : SemId) : QueueEvent
  | lockExit : QueueEvent
deriving DecidableEq, Repr

/-- The fields of `FifoQueueBase` relevant to `popPushImplementation`:
the bounds of the circular storage buffer, addresses modelled as naturals. -/
structure FifoQueueBase : Type where
  storageBegin_ : Nat
  storageEnd_ : Nat
deriving DecidableEq, Repr

/-- Embedding of `FifoQueueBase::popPushImplementation`.  The C++ body is:
interrupt-masking lock is constructed on entry (released on every return path);
`waitSemaphore.wait()` is called and a non-zero result is returned unchanged;
otherwise the functor is applied to the storage pointer (advancing it), the
pointer is wrapped to `storageBegin_` if it equals `storageEnd_`, and the
result of `postSemaphore.post()` is returned.  Semaphore results are inputs
(`waitResult`, `postResult`); the returned triple is (return value, new value
of the `storage` reference, event trace). -/
def popPushImplementation (q : FifoQueueBase) (functor : Nat → Nat)
    (waitSem postSem : SemId) (waitResult postResult : Int) (storage : Nat) :
    Int × Nat × List QueueEvent :=
  if waitResult ≠ 0 then
    (waitResult, storage, [.lockEnter, .semWait waitSem, .lockExit])
  else
    let s1 := functor storage
    let s2 := if s1 = q.storageEnd_ then q.storageBegin_ else s1
    (postResult, s2, [.lockEnter, .semWait waitSem, .functorCall storage, .semPost postSem, .lockExit])

/-- Modelled from the spec: the `push` wrapper of `FifoQueueBase` (its header is
not among the sources) calls `popPushImplementation` waiting on the space
semaphore and posting the items semaphore, with the write position as the
storage reference. -/
def push (q : FifoQueueBase) (functor : Nat → Nat) (waitResult postResult : Int)
    (writePosition : Nat) : Int × Nat × List QueueEvent :=
  popPushImplementation q functor .space .items waitResult postResult writePosition

/-- Modelled from the spec: the `pop` wrapper of `FifoQueueBase` (its header is
not among the sources) calls `popPushImplementation` waiting on the items
semaphore and posting the space semaphore, with the read position as the
storage reference. -/
def pop (q : FifoQueueBase) (functor : Nat → Nat) (waitResult postResult : Int)
    (readPosition : Nat) : Int × Nat × List QueueEvent :=
  popPushImplementation q functor .items .space waitResult postResult readPosition

/-! ### Linear priority-inheritance chain

Modelled from the spec.  The mutex/scheduler implementation is not among the
sources at hand; only its test is.  The spec states that for every thread
`effectivePriority(t) = max(basePriority(t), max waiter effectivePriority over
owned PI mutexes)`, and that blocking, timeout-cancellation and `setPriority`
recompute the owner's effective priority and propagate the change along the
chain of owners, stopping when an owner's effective priority does not change.

`testCanceledLock` and `testPriorityChange` build a linear chain: the main
thread owns mutex 0; thread `T_i` owns mutex `i+1` (except the last) and is
blocked on mutex `i`, so each thread is blocked on a mutex owned by its
predecessor.  A chain state is a list of `(basePriority, effectivePriority)`
pairs, head = main thread, each later entry the thread blocked on a mutex
owned by the previous entry. -/

/-- A PI chain state: `(basePriority, storedEffectivePriority)` per thread,
head = main, each subsequent thread blocked on a mutex owned by its
predecessor. -/
abbrev Chain : Type := List (Nat × Nat)

/-- Modelled from the spec: recompute a thread's effective priority from its
base priority `b` and the (single) waiter chain hanging off the mutex it owns:
`max(b, effective priority of the immediately blocked thread)`. -/
def recomputeEff (b : Nat) : Chain → Nat
  | [] => b
  | (_, e) :: _ => max b e

/-- Stored effective priority of the head (main) thread of a chain. -/
def mainEff : Chain → Nat
  | [] => 0
  | (_, e) :: _ => e

/-- Stored effective priority of the head thread, `none` for an empty chain. -/
def headEff : Chain → Option Nat
  | [] => none
  | (_, e) :: _ => some e

/-- Stored effective priority of the last (deepest blocked) thread of a chain. -/
def lastEff : Chain → Nat
  | [] => 0
  | [(_, e)] => e
  | _ :: rest => lastEff rest

/-- The specification's effective priorities for a list of base priorities
along a chain: each thread's effective priority is the maximum of its own base
priority and the effective priority of the thread immediately blocked on the
mutex it owns, computed transitively (so the last thread's effective priority
is its base priority). -/
def chainEffs : List Nat → List Nat
  | [] => []
  | b :: bs =>
      (match chainEffs bs with
       | [] => b
       | e :: _ => max b e) :: chainEffs bs

/-- The specification's effective priority of a thread with base priority `b`
whose owned mutex blocks the chain with base priorities `bs`. -/
def specEffHead (b : Nat) (bs : List Nat) : Nat :=
  match chainEffs bs with
  | [] => b
  | e :: _ => max b e

/-- A chain state satisfies the spec invariant: every stored effective
priority equals the transitive maximum required by the specification. -/
def consistent (c : Chain) : Prop :=
  c.map Prod.snd = chainEffs (c.map Prod.fst)

instance (c : Chain) : Decidable (consistent c) := by
  unfold consistent; infer_instance

/-- Modelled from the spec, `setPriority` on the thread at position `i` of the
chain: its base priority becomes `p`, its effective priority is recomputed,
and if the effective priority changed the owner it is blocked on (the previous
chain entry) recomputes as well, propagating toward main; the walk stops when
an effective priority does not change.  Returns the new chain and whether the
effective priority of the suffix head changed (which tells the caller, the
next owner toward main, whether it must recompute). -/
def setPrioChain : Chain → Nat → Nat → Chain × Bool
  | [], _, _ => ([], false)
  | (_, e) :: rest, 0, p =>
      let e' := recomputeEff p rest
      ((p, e') :: rest, decide (e' ≠ e))
  | (b, e) :: rest, i + 1, p =>
      match setPrioChain rest i p with
      | (rest', true) =>
          let e' := recomputeEff b rest'
          ((b, e') :: rest', decide (e' ≠ e))
      | (rest', false) => ((b, e) :: rest', false)

/-- Modelled from the spec: a new thread with base priority `b` blocks on the
mutex owned by the last thread of the chain; the boost propagates up the
chain, every owner recomputing its effective priority. -/
def blockOn : Chain → Nat → Chain
  | [], b => [(b, b)]
  | (b0, _) :: rest, b =>
      let rest' := blockOn rest b
      (b0, recomputeEff b0 rest') :: rest'

/-- Modelled from the spec: the deepest blocked thread (the chain's last
entry) times out: it is removed from the wait list of the mutex it was blocked
on, and the lost boost is rolled back along the chain, each owner recomputing
its effective priority, stopping when a value does not change.  Returns the
new chain and whether the effective priority of the suffix head changed. -/
def timeoutStep : Chain → Chain × Bool
  | [] => ([], false)
  | [_] => ([], true)
  | (b, e) :: rest =>
      match timeoutStep rest with
      | (rest', true) =>
          let e' := recomputeEff b rest'
          ((b, e') :: rest', decide (e' ≠ e))
      | (rest', false) => ((b, e) :: rest', false)

/-- `k` successive timeouts of the deepest blocked thread. -/
def timeoutIter : Nat → Chain → Chain
  | 0, c => c
  | k + 1, c => timeoutIter k (timeoutStep c).1

/-- Modelled from the spec: result of `Mutex::tryLockFor` — 0 when the mutex
was acquired before the deadline, `ETIMEDOUT` when the timed wait expired.  In
the `testCanceledLock` scenario no contended mutex is ever released before its
waiter's deadline, so every timed lock times out. -/
def tryLockForResult (acquired : Bool) : Nat :=
  if acquired then 0 else ETIMEDOUT

/-- The fully-blocked ascending chain with `m + 1` threads: base priorities
`P, P + 1, …, P + m` (main = `P`, thread `T_i` = `P + i + 1` as in the tests),
every stored effective priority equal to the maximum `P + m`. -/
def ascChain (P : Nat) : Nat → Chain
  | 0 => [(P, P)]
  | m + 1 => (P, P + (m + 1)) :: ascChain (P + 1) m

/-- The chain built operationally: main at base `P`, then threads of base
priorities `P + 1, …, P + 10` blocking at the end of the chain one by one, as
in `testCanceledLock` / `testPriorityChange`. -/
def buildChain (P : Nat) : Chain :=
  (List.range 10).foldl (fun c i => blockOn c (P + i + 1)) [(P, P)]

/-- One entry of the `priorityChanges` table applied to a chain state: entry
`(i, p)` performs `setPriority` on thread `T_i`, which sits at chain position
`i + 1` (position 0 is the main thread). -/
def applyChange (c : Chain) (change : Nat × Nat) : Chain :=
  (setPrioChain c (change.1 + 1) change.2).1

/-- The `priorityChanges` table of `testPriorityChange` (40 entries), with
`testThreadPriority = P` and `UINT8_MAX = 255`: first all ten threads are set
to `P`, then the original priorities are restored in reverse order, then each
thread in turn is raised to 255 and restored. -/
def priorityChanges (P : Nat) : List (Nat × Nat) :=
  [(9, P), (8, P), (7, P), (6, P), (5, P), (4, P), (3, P), (2, P), (1, P), (0, P),
   (0, P + 1), (1, P + 2), (2, P + 3), (3, P + 4), (4, P + 5),
   (5, P + 6), (6, P + 7), (7, P + 8), (8, P + 9), (9, P + 10),
   (0, 255), (0, P + 1), (1, 255), (1, P + 2), (2, 255), (2, P + 3),
   (3, 255), (3, P + 4), (4, 255), (4, P + 5), (5, 255), (5, P + 6),
   (6, 255), (6, P + 7), (7, 255), (7, P + 8), (8, 255), (8, P + 9),
   (9, 255), (9, P + 10)]

/-! ### Tree-shaped priority-inheritance hierarchy

`testBasicPriorityInheritance` connects 10 threads and the main thread into a
tree: a node's children are the threads blocked on mutexes the node owns.
Thread identifiers follow the order of the test's `threads` array
(T0=0, T1=1, T00=2, T01=3, T10=4, T11=5, T100=6, T101=7, T110=8, T111=9,
main=10); bases are stored relative to `testThreadPriority` (row 0 of the
test's `priorityBoosts` table) and shifted by `P` via `shiftTree`. -/

/-- A PI blocking tree: `node tid base children`, where `children` are the
threads blocked on mutexes this thread owns. -/
inductive PITree : Type where
  | node (tid : Nat) (base : Nat) (children : List PITree) : PITree
deriving Repr

/-- Thread identifier of a tree node. -/
def PITree.tid : PITree → Nat
  | .node t _ _ => t

mutual

/-- Modelled from the spec: effective priority of a thread in the blocking
tree when only threads with identifier `< n` have been started (and hence
blocked): the maximum of the thread's base priority and the effective
priorities of the started threads blocked on mutexes it owns. -/
def effN (n : Nat) : PITree → Nat
  | .node _ b cs => effListN n b cs

/-- Fold of `effN` over a list of children, starting from the base priority
accumulator; children not yet started (identifier `≥ n`) are not blocked and
contribute nothing. -/
def effListN (n : Nat) (acc : Nat) : List PITree → Nat
  | [] => acc
  | c :: cs => effListN n (if c.tid < n then max acc (effN n c) else acc) cs

end

mutual

/-- Shift every base priority in a tree by `P` (the test's priorities are
`testThreadPriority` plus a fixed boost). -/
def shiftTree (P : Nat) : PITree → PITree
  | .node t b cs => .node t (P + b) (shiftList P cs)

/-- Shift every base priority in a list of trees by `P`. -/
def shiftList (P : Nat) : List PITree → List PITree
  | [] => []
  | c :: cs => shiftTree P c :: shiftList P cs

end

/-- Thread T00: blocked on mutex00 (owned by T0); base boost 3. -/
def t00Tree : PITree := .node 2 3 []

/-- Thread T01: blocked on mutex01 (owned by T0); base boost 4. -/
def t01Tree : PITree := .node 3 4 []

/-- Thread T100: blocked on mutex100 (owned by T10); base boost 7. -/
def t100Tree : PITree := .node 6 7 []

/-- Thread T101: blocked on mutex101 (owned by T10); base boost 8. -/
def t101Tree : PITree := .node 7 8 []

/-- Thread T110: blocked on mutex110 (owned by T11); base boost 9. -/
def t110Tree : PITree := .node 8 9 []

/-- Thread T111: blocked on mutex111 (owned by T11); base boost 10. -/
def t111Tree : PITree := .node 9 10 []

/-- Thread T10: owns mutex100 and mutex101, blocked on mutex10 (owned by T1);
base boost 5. -/
def t10Tree : PITree := .node 4 5 [t100Tree, t101Tree]

/-- Thread T11: owns mutex110 and mutex111, blocked on mutex11 (owned by T1);
base boost 6. -/
def t11Tree : PITree := .node 5 6 [t110Tree, t111Tree]

/-- Thread T0: owns mutex00 and mutex01, blocked on mutex0 (owned by main);
base boost 1. -/
def t0Tree : PITree := .node 0 1 [t00Tree, t01Tree]

/-- Thread T1: owns mutex10 and mutex11, blocked on mutex1 (owned by main);
base boost 2. -/
def t1Tree : PITree := .node 1 2 [t10Tree, t11Tree]

/-- The main thread owning mutex0 and mutex1 with the two subtrees of blocked
threads hanging off them; base boost 0. -/
def mainTree0 : PITree := .node 10 0 [t0Tree, t1Tree]

/-- The main thread after unlocking mutex1: only the subtree blocked through
the still-owned mutex0 remains. -/
def mainAfterUnlock1Tree0 : PITree := .node 10 0 [t0Tree]

/-- Subtree rooted at test thread `j` (index in the test's `threads` array). -/
def testTree0 : Nat → PITree
  | 0 => t0Tree
  | 1 => t1Tree
  | 2 => t00Tree
  | 3 => t01Tree
  | 4 => t10Tree
  | 5 => t11Tree
  | 6 => t100Tree
  | 7 => t101Tree
  | 8 => t110Tree
  | _ => t111Tree

/-- The `priorityBoosts` table of `testBasicPriorityInheritance`: row `i` is
the expected effective priority (relative to `testThreadPriority`) of every
test thread after the `i`-th thread has been started. -/
def priorityBoosts : List (List Nat) :=
  [[1, 2, 3, 4, 5, 6, 7, 8, 9, 10],
   [1, 2, 3, 4, 5, 6, 7, 8, 9, 10],
   [3, 2, 3, 4, 5, 6, 7, 8, 9, 10],
   [4, 2, 3, 4, 5, 6, 7, 8, 9, 10],
   [4, 5, 3, 4, 5, 6, 7, 8, 9, 10],
   [4, 6, 3, 4, 5, 6, 7, 8, 9, 10],
   [4, 7, 3, 4, 7, 6, 7, 8, 9, 10],
   [4, 8, 3, 4, 8, 6, 7, 8, 9, 10],
   [4, 9, 3, 4, 8, 9, 7, 8, 9, 10],
   [4, 10, 3, 4, 8, 10, 7, 8, 9, 10]]

/-- Expected boost of thread `j` after starting the `i`-th thread. -/
def boost (i j : Nat) : Nat := (priorityBoosts.getD i []).getD j 0

/-! ### Mutex types

Modelled from the spec (the mutex implementation is not among the sources):
lock and unlock semantics by mutex type, used to show that the scenarios of
the PI test behave identically for the Normal, ErrorChecking and Recursive
types. -/

/-- The three mutex types. -/
inductive MutexType : Type where
  | normal : MutexType
  | errorChecking : MutexType
  | recursive : MutexType
deriving DecidableEq, Repr

/-- Type-relevant mutex state: owning thread (if any) and recursion count. -/
structure MutexState : Type where
  owner : Option Nat
  recursionCount : Nat
deriving DecidableEq, Repr

/-- Outcome of a lock attempt. -/
inductive LockOutcome : Type where
  | acquired : LockOutcome
  | blocked : LockOutcome
  | error (code : Nat) : LockOutcome
  | undefinedBehavior : LockOutcome
deriving DecidableEq, Repr

/-- Outcome of an unlock. -/
inductive UnlockOutcome : Type where
  | ok : UnlockOutcome
  | error (code : Nat) : UnlockOutcome
  | undefinedBehavior : UnlockOutcome
deriving DecidableEq, Repr

/-- Modelled from the spec: the recursion-count ceiling of a Recursive mutex
(lock fails with `EAGAIN` when it would be exceeded). -/
def recursionCountMax : Nat := 65535

/-- Modelled from the spec, the type-dependent part of `Mutex::lock`: an
unowned mutex is acquired; a self-lock is undefined for Normal, `EDEADLK` for
ErrorChecking and increments the recursion count for Recursive (with overflow
error); locking a mutex owned by another thread blocks the caller. -/
def lock (ty : MutexType) (m : MutexState) (caller : Nat) : MutexState × LockOutcome :=
  match m.owner with
  | none => (⟨some caller, 1⟩, .acquired)
  | some o =>
      if o = caller then
        match ty with
        | .normal => (m, .undefinedBehavior)
        | .errorChecking => (m, .error EDEADLK)
        | .recursive =>
            if m.recursionCount = recursionCountMax then (m, .error EAGAIN)
            else (⟨some o, m.recursionCount + 1⟩, .acquired)
      else (m, .blocked)

/-- Modelled from the spec, the type-dependent part of `Mutex::unlock`: a
Recursive mutex with recursion count above 1 just decrements; otherwise the
owner releases the mutex; an unlock by a non-owner is undefined for Normal
and `EPERM` for the other types. -/
def unlock (ty : MutexType) (m : MutexState) (caller : Nat) : MutexState × UnlockOutcome :=
  if m.owner = some caller then
    if ty = .recursive ∧ 1 < m.recursionCount then
      (⟨some caller, m.recursionCount - 1⟩, .ok)
    else (⟨none, 0⟩, .ok)
  else
    match ty with
    | .normal => (m, .undefinedBehavior)
    | _ => (m, .error EPERM)

/-- Run the lock calls of one test thread (cf. `LockThread::operator()` and the
locking phase of `TryLockForThread::operator()`): lock each mutex in order;
on a contended mutex the thread blocks and its remaining calls are deferred.
Returns the updated mutex states, the index of the mutex the thread blocked
on (if any) and the last non-zero error code. -/
def runThreadLocks (ty : MutexType) (tid : Nat) :
    List Nat → List MutexState → List MutexState × Option Nat × Nat
  | [], ms => (ms, none, 0)
  | l :: rest, ms =>
      let m := ms.getD l ⟨none, 0⟩
      match lock ty m tid with
      | (m', .acquired) => runThreadLocks ty tid rest (ms.set l m')
      | (_, .blocked) => (ms, some l, 0)
      | (_, .error code) =>
          let (ms', bl, r) := runThreadLocks ty tid rest ms
          (ms', bl, if r = 0 then code else r)
      | (_, .undefinedBehavior) => (ms, some l, 0)

/-- Run a whole scenario: each `(tid, locks)` entry is a thread started in
order, running until it blocks (each started thread has a higher priority than
all previously running ones, so it runs immediately and the execution is
sequential).  Returns the final mutex states, the per-thread blocked-on mutex
and the per-thread error code. -/
def runScenario (ty : MutexType) :
    List (Nat × List Nat) → List MutexState → List MutexState × List (Option Nat) × List Nat
  | [], ms => (ms, [], [])
  | (tid, locks) :: rest, ms =>
      let (ms', bl, err) := runThreadLocks ty tid locks ms
      let (ms'', bls, errs) := runScenario ty rest ms'
      (ms'', bl :: bls, err :: errs)

/-- Lock sequence of `testBasicPriorityInheritance`: mutex indices follow the
test's `mutexes` array (0 = mutex0, 1 = mutex1, 2 = mutex00, 3 = mutex01,
4 = mutex10, 5 = mutex11, 6 = mutex100, 7 = mutex101, 8 = mutex110,
9 = mutex111).  Main (tid 10) locks mutex0 and mutex1, then the ten test
threads run in start order with the mutex lists of the test's
`threadObjects`. -/
def treeScript : List (Nat × List Nat) :=
  [(10, [0, 1]),
   (0, [2, 3, 0]), (1, [4, 5, 1]), (2, [2]), (3, [3]),
   (4, [6, 7, 4]), (5, [8, 9, 5]), (6, [6]), (7, [7]),
   (8, [8]), (9, [9])]

/-- Lock sequence of `testPriorityChange` (and, with the last lock of each
thread a timed one, of `testCanceledLock`): main (tid 10) locks mutex0, thread
`T_i` locks mutex `i+1` and then mutex `i` (T9 only mutex 9). -/
def chainScript : List (Nat × List Nat) :=
  [(10, [0]),
   (0, [1, 0]), (1, [2, 1]), (2, [3, 2]), (3, [4, 3]), (4, [5, 4]),
   (5, [6, 5]), (6, [7, 6]), (7, [8, 7]), (8, [9, 8]), (9, [9])]

/-- The ten mutexes of either scenario, initially unowned. -/
def initialMutexes : List MutexState := List.replicate 10 ⟨none, 0⟩

/-- Result of running the tree scenario with mutexes of the given type. -/
def treeScenario (ty : MutexType) : List MutexState × List (Option Nat) × List Nat :=
  runScenario ty treeScript initialMutexes

/-- Result of running the linear-chain scenario with mutexes of the given
type. -/
def chainScenario (ty : MutexType) : List MutexState × List (Option Nat) × List Nat :=
  runScenario ty chainScript initialMutexes

/-! ## Theorems for the FIFO queue claims -/

/-- Claim C6: for every invocation of `FifoQueueBase::popPushImplementation`,
if the wait on the first semaphore returns a non-zero code, that code is
returned unchanged and neither the transfer functor nor the post on the second
semaphore is performed (the storage pointer is also untouched); if the wait
succeeds, the return value is exactly the result of `postSemaphore.post()`. -/
theorem popPush_error_propagation (q : FifoQueueBase) (functor : Nat → Nat)
    (waitSem postSem : SemId) (waitResult postResult : Int) (storage : Nat) :
    (waitResult ≠ 0 →
      (popPushImplementation q functor waitSem postSem waitResult postResult storage).1 =
        waitResult ∧
      (popPushImplementation q functor waitSem postSem waitResult postResult storage).2.1 =
        storage ∧
      (∀ p, QueueEvent.functorCall p ∉
        (popPushImplementation q functor waitSem postSem waitResult postResult storage).2.2) ∧
      ∀ s, QueueEvent.semPost s ∉
        (popPushImplementation q functor waitSem postSem waitResult postResult storage).2.2) ∧
    (waitResult = 0 →
      (popPushImplementation q functor waitSem postSem waitResult postResult storage).1 =
        postResult) := by
  constructor
  · intro h
    simp [popPushImplementation, h]
  · intro h
    simp [popPushImplementation, h]

/-- Witness for `popPush_error_propagation` at a concrete failing wait. -/
theorem popPush_error_propagation_witness :
    (5 : Int) ≠ 0 ∧
    (popPushImplementation ⟨0, 4⟩ (fun p => p + 1) .space .items 5 0 2).1 = 5 :=
  ⟨by decide,
    ((popPush_error_propagation ⟨0, 4⟩ (fun p => p + 1) .space .items 5 0 2).1 (by decide)).1⟩

/-- Claim C7: a FIFO queue push acquires the space semaphore, invokes the
caller-supplied transfer functor with the current write pointer, wraps the
pointer back to the start of the buffer exactly when it equals the end of the
buffer, then releases the items semaphore; pop is the symmetric operation
with the two semaphores swapped; both are realized by the single shared
`popPushImplementation`. -/
theorem push_pop_via_popPush (q : FifoQueueBase) (functor : Nat → Nat)
    (waitResult postResult : Int) (position : Nat) :
    push q functor waitResult postResult position =
      popPushImplementation q functor .space .items waitResult postResult position ∧
    pop q functor waitResult postResult position =
      popPushImplementation q functor .items .space waitResult postResult position ∧
    (waitResult = 0 →
      (push q functor waitResult postResult position).2.1 =
        (if functor position = q.storageEnd_ then q.storageBegin_ else functor position) ∧
      (push q functor waitResult postResult position).2.2 =
        [.lockEnter, .semWait .space, .functorCall position, .semPost .items, .lockExit] ∧
      (pop q functor waitResult postResult position).2.2 =
        [.lockEnter, .semWait .items, .functorCall position, .semPost .space, .lockExit]) := by
  refine ⟨rfl, rfl, ?_⟩
  intro h
  refine ⟨?_, ?_, ?_⟩ <;> simp [push, pop, popPushImplementation, h]

/-- Witness for `push_pop_via_popPush` at a concrete successful push. -/
theorem push_pop_via_popPush_witness :
    (push ⟨0, 4⟩ (fun p => p + 1) 0 0 3).2.2 =
      [.lockEnter, .semWait .space, .functorCall 3, .semPost .items, .lockExit] :=
  ((push_pop_via_popPush ⟨0, 4⟩ (fun p => p + 1) 0 0 3).2.2 rfl).2.1

/-- Claim C8 as stated is false on the code: it claims the semaphore
acquisition occurs first, outside the interrupt-masking critical section, and
only afterwards is the interrupt-masking lock entered — i.e. that the wait
event precedes the lock-enter event.  In the source the
`InterruptMaskingLock` is constructed at function entry, before
`waitSemaphore.wait()` is called, so at this concrete input the wait event
does not precede the lock-enter event. -/
theorem criticalSection_claim_false :
    ¬ ((popPushImplementation ⟨0, 4⟩ (fun p => p + 1) .space .items 0 0 0).2.2.indexOf
         (QueueEvent.semWait .space) <
       (popPushImplementation ⟨0, 4⟩ (fun p => p + 1) .space .items 0 0 0).2.2.indexOf
         QueueEvent.lockEnter) := by
  decide

/-- Claim C8, amended: the interrupt-masking lock is entered at function
entry, before the semaphore wait; the critical section spans the entire
operation — the semaphore wait, the transfer functor invocation, the pointer
advance and the semaphore post all happen between lock entry and lock exit. -/
theorem criticalSection_covers_wait (q : FifoQueueBase) (functor : Nat → Nat)
    (waitSem postSem : SemId) (waitResult postResult : Int) (storage : Nat) :
    (waitResult ≠ 0 →
      (popPushImplementation q functor waitSem postSem waitResult postResult storage).2.2 =
        [.lockEnter, .semWait waitSem, .lockExit]) ∧
    (waitResult = 0 →
      (popPushImplementation q functor waitSem postSem waitResult postResult storage).2.2 =
        [.lockEnter, .semWait waitSem, .functorCall storage, .semPost postSem, .lockExit]) := by
  constructor
  · intro h
    simp [popPushImplementation, h]
  · intro h
    simp [popPushImplementation, h]

/-- Witness for `criticalSection_covers_wait` at a concrete successful call. -/
theorem criticalSection_covers_wait_witness :
    (popPushImplementation ⟨0, 4⟩ (fun p => p + 1) .space .items 0 7 1).2.2 =
      [.lockEnter, .semWait .space, .functorCall 1, .semPost .items, .lockExit] :=
  (criticalSection_covers_wait ⟨0, 4⟩ (fun p => p + 1) .space .items 0 7 1).2 rfl

/-- Claim C10: `popPushImplementation` preserves the invariant that the
storage pointer lies in `[storageBegin_, storageEnd_)`: assuming the transfer
functor advances the pointer to at most `storageEnd_`, the pointer is reset to
`storageBegin_` exactly when it equals `storageEnd_`, so after every
successful call the pointer is strictly below `storageEnd_` (and at least
`storageBegin_`); on a failed semaphore wait the pointer is unchanged. -/
theorem storage_pointer_invariant (q : FifoQueueBase) (functor : Nat → Nat)
    (waitSem postSem : SemId) (waitResult postResult : Int) (storage : Nat)
    (h1 : q.storageBegin_ ≤ storage) (h2 : storage < q.storageEnd_)
    (h3 : storage < functor storage) (h4 : functor storage ≤ q.storageEnd_) :
    (waitResult = 0 →
      q.storageBegin_ ≤
        (popPushImplementation q functor waitSem postSem waitResult postResult storage).2.1 ∧
      (popPushImplementation q functor waitSem postSem waitResult postResult storage).2.1 <
        q.storageEnd_) ∧
    (waitResult ≠ 0 →
      (popPushImplementation q functor waitSem postSem waitResult postResult storage).2.1 =
        storage) := by
  constructor
  · intro h
    simp only [popPushImplementation, h, ne_eq, not_true_eq_false, if_false, ite_not]
    split <;> omega
  · intro h
    simp [popPushImplementation, h]

/-- Witness for `storage_pointer_invariant` at a concrete wrapping push. -/
theorem storage_pointer_invariant_witness :
    (0 : Nat) ≤ 3 ∧ 3 < 4 ∧ 3 < 3 + 1 ∧ 3 + 1 ≤ 4 ∧
    ((0 : Nat) ≤ (popPushImplementation ⟨0, 4⟩ (fun p => p + 1) .space .items 0 0 3).2.1 ∧
      (popPushImplementation ⟨0, 4⟩ (fun p => p + 1) .space .items 0 0 3).2.1 < 4) :=
  ⟨by decide, by decide, by decide, by decide,
    (storage_pointer_invariant ⟨0, 4⟩ (fun p => p + 1) .space .items 0 0 3
      (by decide) (by decide) (by decide) (by decide)).1 rfl⟩

/-! ## Chain lemmas -/

theorem chainEffs_cons (b : Nat) (bs : List Nat) :
    chainEffs (b :: bs) = specEffHead b bs :: chainEffs bs := rfl

theorem specEffHead_cons (b b0 : Nat) (bs : List Nat) :
    specEffHead b (b0 :: bs) = max b (specEffHead b0 bs) := by
  simp [specEffHead, chainEffs_cons]

theorem consistent_nil : consistent [] := rfl

theorem consistent_cons_iff (b e : Nat) (rest : Chain) :
    consistent ((b, e) :: rest) ↔
      e = specEffHead b (rest.map Prod.fst) ∧ consistent rest := by
  simp [consistent, chainEffs_cons]

theorem recomputeEff_eq (b : Nat) (c : Chain) (h : consistent c) :
    recomputeEff b c = specEffHead b (c.map Prod.fst) := by
  match c with
  | [] => rfl
  | (b0, e0) :: rest =>
      rw [consistent_cons_iff] at h
      simp only [recomputeEff, List.map_cons, specEffHead_cons]
      rw [h.1]

theorem recomputeEff_congr (b : Nat) (c c' : Chain) (h : headEff c = headEff c') :
    recomputeEff b c = recomputeEff b c' := by
  match c, c' with
  | [], [] => rfl
  | [], (b1, e1) :: _ => simp [headEff] at h
  | (b0, e0) :: _, [] => simp [headEff] at h
  | (b0, e0) :: _, (b1, e1) :: _ =>
      simp only [headEff, Option.some.injEq] at h
      simp [recomputeEff, h]

/-- The operational `setPriority` propagation preserves the spec invariant:
the resulting chain is consistent, its base priorities are those of the input
with position `i` replaced by `p`, and a `false` change flag really means the
head's stored effective priority is unchanged. -/
theorem setPrioChain_spec : ∀ (c : Chain) (i p : Nat), consistent c →
    consistent (setPrioChain c i p).1 ∧
    (setPrioChain c i p).1.map Prod.fst = (c.map Prod.fst).set i p ∧
    ((setPrioChain c i p).2 = false → headEff (setPrioChain c i p).1 = headEff c)
  | [], i, p, h => by
      refine ⟨consistent_nil, ?_, fun _ => rfl⟩
      simp [setPrioChain]
  | (b, e) :: rest, 0, p, h => by
      rw [consistent_cons_iff] at h
      refine ⟨?_, ?_, ?_⟩
      · rw [setPrioChain]
        rw [consistent_cons_iff]
        exact ⟨recomputeEff_eq p rest h.2, h.2⟩
      · simp [setPrioChain]
      · intro hf
        rw [setPrioChain] at hf ⊢
        simp only [decide_eq_false_iff_not, not_not] at hf
        simp [headEff, hf]
  | (b, e) :: rest, i + 1, p, h => by
      rw [consistent_cons_iff] at h
      have ih := setPrioChain_spec rest i p h.2
      rcases hsp : setPrioChain rest i p with ⟨rest', fl⟩
      rw [hsp] at ih
      match fl with
      | true =>
          refine ⟨?_, ?_, ?_⟩
          · rw [setPrioChain, hsp]
            rw [consistent_cons_iff]
            exact ⟨recomputeEff_eq b rest' ih.1, ih.1⟩
          · rw [setPrioChain, hsp]
            simp only [List.map_cons, List.set_cons_succ]
            rw [ih.2.1]
          · intro hf
            rw [setPrioChain, hsp] at hf ⊢
            simp only [decide_eq_false_iff_not, not_not] at hf
            simp [headEff, hf]
      | false =>
          refine ⟨?_, ?_, ?_⟩
          · rw [setPrioChain, hsp]
            rw [consistent_cons_iff]
            refine ⟨?_, ih.1⟩
            rw [← recomputeEff_eq b rest' ih.1,
              recomputeEff_congr b rest' rest (ih.2.2 rfl),
              recomputeEff_eq b rest h.2]
            exact h.1
          · rw [setPrioChain, hsp]
            simp only [List.map_cons, List.set_cons_succ]
            rw [ih.2.1]
          · intro _
            rw [setPrioChain, hsp]
            rfl

theorem applyChange_consistent (c : Chain) (change : Nat × Nat) (h : consistent c) :
    consistent (applyChange c change) :=
  (setPrioChain_spec c (change.1 + 1) change.2 h).1

theorem foldl_applyChange_consistent :
    ∀ (l : List (Nat × Nat)) (c : Chain), consistent c →
      consistent (l.foldl applyChange c)
  | [], _, h => h
  | change :: rest, c, h =>
      foldl_applyChange_consistent rest _ (applyChange_consistent c change h)

theorem recomputeEff_ascChain (b Q m : Nat) :
    recomputeEff b (ascChain Q m) = max b (Q + m) := by
  cases m <;> simp [ascChain, recomputeEff]

theorem headEff_ascChain (Q m : Nat) : headEff (ascChain Q m) = some (Q + m) := by
  cases m <;> simp [ascChain, headEff]

theorem ascChain_ne_nil (Q m : Nat) : ascChain Q m ≠ [] := by
  cases m <;> simp [ascChain]

theorem ascChain_consistent : ∀ (m P : Nat), consistent (ascChain P m)
  | 0, P => by simp [ascChain, consistent, chainEffs]
  | m + 1, P => by
      have ih := ascChain_consistent m (P + 1)
      rw [ascChain, consistent_cons_iff]
      refine ⟨?_, ih⟩
      rw [← recomputeEff_eq P _ ih, recomputeEff_ascChain]
      omega

theorem mainEff_ascChain (P m : Nat) : mainEff (ascChain P m) = P + m := by
  cases m <;> simp [ascChain, mainEff]

theorem lastEff_cons (x : Nat × Nat) (l : Chain) (h : l ≠ []) :
    lastEff (x :: l) = lastEff l := by
  match l with
  | [] => exact absurd rfl h
  | y :: rest => rfl

theorem lastEff_ascChain : ∀ (m P : Nat), lastEff (ascChain P m) = P + m
  | 0, P => rfl
  | m + 1, P => by
      rw [ascChain, lastEff_cons _ _ (ascChain_ne_nil _ _), lastEff_ascChain m (P + 1)]
      omega

theorem timeoutStep_ascChain : ∀ (m P : Nat),
    timeoutStep (ascChain P (m + 1)) = (ascChain P m, true)
  | 0, P => by
      simp only [ascChain, timeoutStep, recomputeEff]
      simp only [Prod.mk.injEq, decide_eq_true_eq, true_and]
      omega
  | m + 1, P => by
      have ih := timeoutStep_ascChain m (P + 1)
      simp only [ascChain] at ih ⊢
      simp only [timeoutStep, ih]
      rw [recomputeEff_ascChain]
      simp only [Prod.mk.injEq, List.cons.injEq, and_true, true_and, decide_eq_true_eq]
      omega

theorem timeoutIter_ascChain : ∀ (k m P : Nat), k ≤ m →
    timeoutIter k (ascChain P m) = ascChain P (m - k)
  | 0, m, P, _ => by simp [timeoutIter]
  | k + 1, m, P, h => by
      match m, h with
      | m' + 1, h =>
          rw [timeoutIter, timeoutStep_ascChain m' P]
          have := timeoutIter_ascChain k m' P (by omega)
          simpa [Nat.succ_sub_succ] using this

theorem blockOn_ascChain : ∀ (m P b : Nat), b = P + m + 1 →
    blockOn (ascChain P m) b = ascChain P (m + 1)
  | 0, P, b, hb => by
      subst hb
      simp only [ascChain, blockOn, recomputeEff]
      simp only [Prod.mk.injEq, List.cons.injEq, and_true, true_and]
      omega
  | m + 1, P, b, hb => by
      have ih := blockOn_ascChain m (P + 1) b (by omega)
      simp only [ascChain]
      simp only [blockOn]
      rw [ih, recomputeEff_ascChain]
      simp only [ascChain, Prod.mk.injEq, List.cons.injEq, and_true, true_and]
      omega

theorem buildChain_eq (P : Nat) : buildChain P = ascChain P 10 := by
  have h : ∀ (m P' : Nat),
      (List.range m).foldl (fun c i => blockOn c (P' + i + 1)) (ascChain P' 0) =
        ascChain P' m := by
    intro m
    induction m with
    | zero => intro P'; rfl
    | succ m' ih =>
        intro P'
        rw [List.range_succ, List.foldl_append, ih]
        simp only [List.foldl]
        exact blockOn_ascChain m' P' _ (by omega)
  have h10 := h 10 P
  simpa [buildChain, ascChain] using h10

theorem pairList_ext : ∀ (l1 l2 : Chain),
    l1.map Prod.fst = l2.map Prod.fst → l1.map Prod.snd = l2.map Prod.snd → l1 = l2
  | [], [], _, _ => rfl
  | [], (y :: l2), hf, _ => by simp at hf
  | (x :: l1), [], hf, _ => by simp at hf
  | (x :: l1), (y :: l2), hf, hs => by
      simp only [List.map_cons, List.cons.injEq] at hf hs
      have := pairList_ext l1 l2 hf.2 hs.2
      cases x; cases y
      simp_all

/-! ## Tree lemmas -/

theorem tid_shiftTree (P : Nat) (t : PITree) : (shiftTree P t).tid = t.tid := by
  cases t
  rfl

mutual

theorem effN_shiftTree (n P : Nat) : ∀ (t : PITree),
    effN n (shiftTree P t) = P + effN n t
  | .node i b cs => by
      simp only [shiftTree, effN]
      exact effListN_shiftList n P cs b

theorem effListN_shiftList (n P : Nat) : ∀ (cs : List PITree) (acc : Nat),
    effListN n (P + acc) (shiftList P cs) = P + effListN n acc cs
  | [], acc => by simp [shiftList, effListN]
  | c :: cs, acc => by
      simp only [shiftList, effListN, tid_shiftTree]
      by_cases h : c.tid < n
      · simp only [h, if_true]
        rw [effN_shiftTree n P c]
        rw [show max (P + acc) (P + effN n c) = P + max acc (effN n c) by omega]
        exact effListN_shiftList n P cs _
      · simp only [h, if_false]
        exact effListN_shiftList n P cs acc

end

/-! ## Theorems for the priority-inheritance claims -/

/-- Claim C1: in the 10-deep priority-inheritance chain of
`testPriorityChange` (main plus threads T0..T9, each blocked on a PI mutex
owned by its predecessor, main at base priority `P` and `T_i` at `P + i + 1`),
after each of the 40 `setPriority` changes of the `priorityChanges` table the
chain state is `consistent`: every thread's effective priority equals the
maximum of its own priority and the effective priority of the thread
immediately blocking on the mutex it owns, computed transitively along the
chain up to main. -/
theorem priorityChange_invariant (P k : Nat) (hk : k ≤ 40) :
    consistent (((priorityChanges P).take k).foldl applyChange (ascChain P 10)) :=
  foldl_applyChange_consistent _ _ (ascChain_consistent 10 P)

/-- Witness for `priorityChange_invariant`: the full 40-entry table at
`testThreadPriority = 1`. -/
theorem priorityChange_invariant_witness :
    (40 : Nat) ≤ 40 ∧
    consistent (((priorityChanges 1).take 40).foldl applyChange (ascChain 1 10)) :=
  ⟨by decide, priorityChange_invariant 1 40 (by decide)⟩

/-- Claim C2: in the 10-deep linear chain of `testCanceledLock` (main holds
mutex 0, thread `T_i` of base priority `P + i + 1` holds mutex `i + 1` and
does a timed lock on its predecessor's mutex, the timeout durations making the
highest-priority thread time out first), building the chain by blocking the
threads one by one yields the fully-boosted chain; after all threads block
main's effective priority is `P + 10`; after `k` timeouts it is
`P + (10 - k)`; each timeout decreases it by exactly 1, to the timed-out
thread's effective priority minus 1; after all ten time out main is back at
`P`; and a timed lock attempt that expires returns `ETIMEDOUT`. -/
theorem canceledLock_priorities (P k : Nat) (hk : k < 10) :
    buildChain P = ascChain P 10 ∧
    mainEff (timeoutIter k (ascChain P 10)) = P + (10 - k) ∧
    lastEff (timeoutIter k (ascChain P 10)) = P + (10 - k) ∧
    mainEff (timeoutIter (k + 1) (ascChain P 10)) + 1 =
      lastEff (timeoutIter k (ascChain P 10)) ∧
    tryLockForResult false = ETIMEDOUT ∧
    mainEff (timeoutIter 10 (ascChain P 10)) = P := by
  have h1 := timeoutIter_ascChain k 10 P (by omega)
  have h2 := timeoutIter_ascChain (k + 1) 10 P (by omega)
  have h3 := timeoutIter_ascChain 10 10 P (by omega)
  refine ⟨buildChain_eq P, ?_, ?_, ?_, rfl, ?_⟩
  · rw [h1, mainEff_ascChain]
  · rw [h1, lastEff_ascChain]
  · rw [h1, h2, mainEff_ascChain, lastEff_ascChain]
    omega
  · rw [h3, mainEff_ascChain]
    omega

/-- Witness for `canceledLock_priorities`: the third timeout at
`testThreadPriority = 1`. -/
theorem canceledLock_priorities_witness :
    (3 : Nat) < 10 ∧
    mainEff (timeoutIter 3 (ascChain 1 10)) = 1 + (10 - 3) :=
  ⟨by decide, (canceledLock_priorities 1 3 (by decide)).2.1⟩

/-- Claim C5: `setPriority` is a round trip on the chain's priority state: for
any position `i` in the 10-deep PI chain (0 = main, `i + 1` = thread `T_i`)
and any priorities `p`, `q` (such as the table's pairs raising a thread to
`UINT8_MAX = 255` and restoring its previous priority), performing
`setPriority` to `p`, then `q`, then `p` again leaves every thread of the
chain — including main — in exactly the state (hence with the same effective
priority) it had before the intermediate change. -/
theorem setPriority_roundTrip (P i p q : Nat) :
    (setPrioChain (setPrioChain (setPrioChain (ascChain P 10) i p).1 i q).1 i p).1 =
      (setPrioChain (ascChain P 10) i p).1 := by
  have h0 := ascChain_consistent 10 P
  have h1 := setPrioChain_spec (ascChain P 10) i p h0
  have h2 := setPrioChain_spec (setPrioChain (ascChain P 10) i p).1 i q h1.1
  have h3 := setPrioChain_spec (setPrioChain (setPrioChain (ascChain P 10) i p).1 i q).1
    i p h2.1
  have hfst : (setPrioChain (setPrioChain (setPrioChain (ascChain P 10) i p).1 i q).1
      i p).1.map Prod.fst = (setPrioChain (ascChain P 10) i p).1.map Prod.fst := by
    rw [h3.2.1, h2.2.1, h1.2.1, List.set_set, List.set_set]
  refine pairList_ext _ _ hfst ?_
  have hc3 := h3.1
  have hc1 := h1.1
  rw [consistent] at hc3 hc1
  rw [hc3, hc1, hfst]

/-- Claim C3: in the 10-thread tree hierarchy of
`testBasicPriorityInheritance` (T111 blocked on M111 owned by T11, T11 on M11
owned by T1, T1 on M1 owned by main, and the symmetric subtrees), with all
base priorities `testThreadPriority = P` plus the boosts of row 0 of
`priorityBoosts`: after starting all 10 threads main's effective priority is
`P + 10`; after starting the `i`-th thread every thread `j`'s effective
priority equals `P + priorityBoosts[i][j]`; and main's effective priority
equals that of the just-started thread. -/
theorem basicPriorityInheritance (P : Nat) :
    effN 10 (shiftTree P mainTree0) = P + 10 ∧
    (∀ i, i < 10 → ∀ j, j < 10 →
      effN (i + 1) (shiftTree P (testTree0 j)) = P + boost i j) ∧
    (∀ i, i < 10 →
      effN (i + 1) (shiftTree P mainTree0) = effN (i + 1) (shiftTree P (testTree0 i))) := by
  refine ⟨?_, ?_, ?_⟩
  · rw [effN_shiftTree]
    have h : effN 10 mainTree0 = 10 := by decide
    omega
  · intro i hi j hj
    rw [effN_shiftTree]
    have key : ∀ i, i < 10 → ∀ j, j < 10 → effN (i + 1) (testTree0 j) = boost i j := by
      decide
    rw [key i hi j hj]
  · intro i hi
    rw [effN_shiftTree, effN_shiftTree]
    have key : ∀ i, i < 10 → effN (i + 1) mainTree0 = effN (i + 1) (testTree0 i) := by
      decide
    rw [key i hi]

/-- Witness for `basicPriorityInheritance`: after starting the 7th thread
(T100) at `testThreadPriority = 1`, thread T10's effective priority is
`1 + priorityBoosts[6][4] = 8`. -/
theorem basicPriorityInheritance_witness :
    effN 10 (shiftTree 1 mainTree0) = 1 + 10 ∧
    effN 7 (shiftTree 1 (testTree0 4)) = 1 + boost 6 4 :=
  ⟨(basicPriorityInheritance 1).1,
    (basicPriorityInheritance 1).2.1 6 (by decide) 4 (by decide)⟩

/-- Claim C4: lock followed by unlock restores the caller's effective
priority to its pre-lock value, subject to boosts from other owned mutexes:
in the tree scenario, after main unlocks mutex1 its effective priority equals
exactly the effective priority contributed through the still-owned mutex0
(that of thread T0's subtree); and after unlocking mutex0 and joining all
threads (no thread blocked any more, cutoff 0) main's effective priority is
its original `testThreadPriority = P` and every test thread's effective
priority is its original base priority (row 0 of `priorityBoosts`). -/
theorem lockUnlock_priority_restore (P : Nat) :
    effN 10 (shiftTree P mainAfterUnlock1Tree0) = effN 10 (shiftTree P t0Tree) ∧
    effN 0 (shiftTree P mainTree0) = P ∧
    (∀ j, j < 10 → effN 0 (shiftTree P (testTree0 j)) = P + boost 0 j) := by
  refine ⟨?_, ?_, ?_⟩
  · rw [effN_shiftTree, effN_shiftTree]
    have h : effN 10 mainAfterUnlock1Tree0 = effN 10 t0Tree := by decide
    rw [h]
  · rw [effN_shiftTree]
    have h : effN 0 mainTree0 = 0 := by decide
    omega
  · intro j hj
    rw [effN_shiftTree]
    have key : ∀ j, j < 10 → effN 0 (testTree0 j) = boost 0 j := by decide
    rw [key j hj]

/-- Witness for `lockUnlock_priority_restore`: thread T11 at
`testThreadPriority = 2` is back at base priority `2 + 6` after the test. -/
theorem lockUnlock_priority_restore_witness :
    effN 10 (shiftTree 2 mainAfterUnlock1Tree0) = effN 10 (shiftTree 2 t0Tree) ∧
    effN 0 (shiftTree 2 (testTree0 5)) = 2 + boost 0 5 :=
  ⟨(lockUnlock_priority_restore 2).1,
    (lockUnlock_priority_restore 2).2.2 5 (by decide)⟩

/-- Claim C9: priority-inheritance behaviour is independent of the mutex
type.  A lock of a mutex not owned by the caller (unowned, or owned by
another thread — the only lock situations arising in the PI test scenarios)
behaves identically for Normal, ErrorChecking and Recursive; an unlock by the
owner at recursion count 1 releases the mutex and returns ok for all three
types; consequently running the complete lock sequences of the tree scenario
and of the linear-chain scenario produces, for every type, exactly the same
mutex ownerships, the same blocked-on relations (the edges of the PI tree and
chain used above, hence the same effective-priority checks) and all-zero lock
error codes. -/
theorem mutexType_independence :
    (∀ (ty : MutexType) (m : MutexState) (c : Nat),
      m.owner ≠ some c → lock ty m c = lock .normal m c) ∧
    (∀ (ty : MutexType) (c : Nat), unlock ty ⟨some c, 1⟩ c = (⟨none, 0⟩, .ok)) ∧
    (∀ ty, treeScenario ty = treeScenario .normal) ∧
    (∀ ty, chainScenario ty = chainScenario .normal) ∧
    (treeScenario .normal).2.1 =
      [none, some 0, some 1, some 2, some 3, some 4,
        some 5, some 6, some 7, some 8, some 9] ∧
    (treeScenario .normal).2.2 = List.replicate 11 0 ∧
    (chainScenario .normal).2.1 =
      [none, some 0, some 1, some 2, some 3, some 4,
        some 5, some 6, some 7, some 8, some 9] ∧
    (chainScenario .normal).2.2 = List.replicate 11 0 ∧
    (chainScenario .normal).1 =
      [⟨some 10, 1⟩, ⟨some 0, 1⟩, ⟨some 1, 1⟩, ⟨some 2, 1⟩, ⟨some 3, 1⟩,
        ⟨some 4, 1⟩, ⟨some 5, 1⟩, ⟨some 6, 1⟩, ⟨some 7, 1⟩, ⟨some 8, 1⟩] := by
  refine ⟨?_, ?_, ?_, ?_, by decide, by decide, by decide, by decide, by decide⟩
  · intro ty m c h
    rcases hm : m.owner with _ | o
    · simp [lock, hm]
    · have hne : o ≠ c := fun he => h (by rw [hm, he])
      simp [lock, hm, hne]
  · intro ty c
    simp [unlock]
  · intro ty
    cases ty <;> decide
  · intro ty
    cases ty <;> decide

/-- Witness for `mutexType_independence`: a Recursive-type lock on a mutex
owned by another thread behaves like a Normal-type one. -/
theorem mutexType_independence_witness :
    (MutexState.mk (some 3) 1).owner ≠ some 5 ∧
    lock .recursive ⟨some 3, 1⟩ 5 = lock .normal ⟨some 3, 1⟩ 5 :=
  ⟨by decide, mutexType_independence.1 .recursive ⟨some 3, 1⟩ 5 (by decide)⟩

end Distortos
